import Mathlib

/-!
Verification development for the furaffinity submission-parsing library.

The library's pure core is embedded shallowly:
* `FA.Error`, `FA.Rating`, `FA.Content`, `FA.Submission` mirror the data model.
* `FA.parse_date` embeds `parse_date`, including the behaviour of chrono's
  `FixedOffset::west(5 * 3600).datetime_from_str(_, "%B %e, %Y %I:%M:%S %p")`
  (month name long or abbreviated, whitespace-tolerant numeric fields, a final
  AM/PM marker, whole-input consumption, calendar validation) followed by the
  conversion of the parsed local instant to UTC.
* `FA.extract_url` embeds `extract_url`; `FA.parse_submission` embeds
  `parse_submission` over `FA.Doc`, an abstraction of the parsed HTML document
  that records, for each selector query the function performs, whether the
  element matched and the attribute/joined-text value the code reads from it.
* `FA.calc_image_hash` embeds `FurAffinity::calc_image_hash`, parameterised by
  the external effects (the HTTP fetch, the image decode + perceptual hasher,
  and the SHA-256 digest), with the base64 rendering and the big-endian i64
  reinterpretation of the 8-byte perceptual hash embedded concretely.

A Rust panic is modelled as an explicit `ParseOutcome.panicked` outcome,
distinct from returning an `Error`.
-/

namespace FA

/-- The library's error type: a message plus a retryability flag. -/
structure Error where
  message : String
  retry : Bool
deriving DecidableEq

/-- Submission rating, mirroring `enum Rating { General, Mature, Adult }`. -/
inductive Rating where
  | General
  | Mature
  | Adult
deriving DecidableEq

/-- `Rating::parse`: only the three exact strings are recognized. -/
def Rating.parse (name : String) : Option Rating :=
  match name with
  | "General" => some .General
  | "Mature" => some .Mature
  | "Adult" => some .Adult
  | _ => none

/-- `enum Content { Image(String), Flash(String) }`. -/
inductive Content where
  | Image (url : String)
  | Flash (url : String)
deriving DecidableEq

/-- `Content::url`: extract the URL from either variant. -/
def Content.url : Content → String
  | .Image u => u
  | .Flash u => u

/-- The `Submission` record.  `posted_at` is the UTC instant as epoch
seconds; byte buffers are `List Nat`. -/
structure Submission where
  id : Int
  title : String
  artist : String
  content : Content
  ext : String
  hash : Option String
  hash_num : Option Int
  filename : String
  rating : Rating
  posted_at : Int
  tags : List String
  description : String
  file : Option (List Nat)
  file_size : Option Nat
  file_sha256 : Option (List Nat)
deriving DecidableEq

/-! ## String helpers mirroring the Rust standard-library operations used -/

/-- Rust `str::split(sep)` as a list of `Char` segments: splitting never
yields an empty list, and adjacent separators yield empty segments. -/
def splitChar (sep : Char) : List Char → List (List Char)
  | [] => [[]]
  | c :: rest =>
    match splitChar sep rest with
    | [] => [[]]
    | seg :: segs =>
      if c = sep then [] :: seg :: segs else (c :: seg) :: segs

/-- Rust `str::split_once(pat)`: the pieces before and after the first
occurrence of `pat`, if any. -/
def splitOnce (pat : List Char) : List Char → Option (List Char × List Char)
  | [] => if pat.isPrefixOf ([] : List Char) then some ([], []) else none
  | c :: rest =>
    if pat.isPrefixOf (c :: rest) then some ([], (c :: rest).drop pat.length)
    else (splitOnce pat rest).map fun p => (c :: p.1, p.2)

/-- Rust `str::strip_suffix(c).unwrap_or(s)`: drop a final `c` if present. -/
def stripSuffixChar (l : List Char) (c : Char) : List Char :=
  match l.getLast? with
  | some x => if x = c then l.dropLast else l
  | none => l

/-! ## Date normalizer: `parse_date` -/

/-- Skip leading whitespace, as chrono does before numeric items and for
whitespace items in the format string. -/
def skipSpaces : List Char → List Char
  | [] => []
  | c :: rest => if c.isWhitespace then skipSpaces rest else c :: rest

/-- Take at most `w` leading ASCII digits. -/
def takeDigits : Nat → List Char → (List Char × List Char)
  | 0, l => ([], l)
  | _ + 1, [] => ([], [])
  | w + 1, c :: rest =>
    if c.isDigit then
      let p := takeDigits w rest
      (c :: p.1, p.2)
    else ([], c :: rest)

/-- Digits to a natural number. -/
def digitsToNat (ds : List Char) : Nat :=
  ds.foldl (fun a c => a * 10 + (c.toNat - 48)) 0

/-- chrono numeric scan: at least one and at most `w` digits. -/
def parseNumRaw (w : Nat) (l : List Char) : Option (Nat × List Char) :=
  let p := takeDigits w l
  if p.1 = [] then none else some (digitsToNat p.1, p.2)

/-- chrono unsigned numeric item: trim leading whitespace, then scan. -/
def parseNum (w : Nat) (l : List Char) : Option (Nat × List Char) :=
  parseNumRaw w (skipSpaces l)

/-- chrono `%Y`: trim, optional sign (unbounded digits after a sign, at most
four without one). -/
def parseYear (l : List Char) : Option (Int × List Char) :=
  match skipSpaces l with
  | '-' :: rest => (parseNumRaw 1000000 rest).map fun p => (-(p.1 : Int), p.2)
  | '+' :: rest => (parseNumRaw 1000000 rest).map fun p => ((p.1 : Int), p.2)
  | l' => (parseNumRaw 4 l').map fun p => ((p.1 : Int), p.2)

/-- Expect an exact literal character (chrono literal items). -/
def expectChar (c : Char) : List Char → Option (List Char)
  | [] => none
  | x :: rest => if x = c then some rest else none

/-- Month table: three-letter abbreviation (lower case), month number, and
the remainder of the long name, as in chrono's month-name scanner. -/
def monthTable : List (List Char × Nat × List Char) :=
  [("jan".data, 1, "uary".data), ("feb".data, 2, "ruary".data),
   ("mar".data, 3, "ch".data), ("apr".data, 4, "il".data),
   ("may".data, 5, "".data), ("jun".data, 6, "e".data),
   ("jul".data, 7, "y".data), ("aug".data, 8, "ust".data),
   ("sep".data, 9, "tember".data), ("oct".data, 10, "ober".data),
   ("nov".data, 11, "ember".data), ("dec".data, 12, "ember".data)]

/-- Does the lower-case pattern match the head of `l` case-insensitively? -/
def lowerMatches (pat l : List Char) : Bool :=
  decide (pat = (l.take pat.length).map Char.toLower)

/-- chrono `%B` parsing: match a three-letter abbreviation case-insensitively,
then additionally consume the long-form remainder when present. -/
def parseMonth (l : List Char) : Option (Nat × List Char) :=
  match l with
  | c1 :: c2 :: c3 :: rest =>
    match monthTable.find? (fun e => e.1 = [c1.toLower, c2.toLower, c3.toLower]) with
    | none => none
    | some e =>
      if lowerMatches e.2.2 rest then some (e.2.1, rest.drop e.2.2.length)
      else some (e.2.1, rest)
  | _ => none

/-- chrono `%p`: exactly two characters, case-insensitive AM/PM
(`true` means PM). -/
def parseAmPm (l : List Char) : Option (Bool × List Char) :=
  match l with
  | c1 :: c2 :: rest =>
    if c2.toLower = 'm' then
      if c1.toLower = 'a' then some (false, rest)
      else if c1.toLower = 'p' then some (true, rest)
      else none
    else none
  | _ => none

/-- Gregorian leap year. -/
def isLeap (y : Int) : Bool :=
  y % 4 = 0 && (y % 100 ≠ 0 || y % 400 = 0)

/-- Days in a month of a given year. -/
def daysInMonth (y : Int) (m : Nat) : Nat :=
  if m = 2 then (if isLeap y then 29 else 28)
  else if m = 4 ∨ m = 6 ∨ m = 9 ∨ m = 11 then 30
  else 31

/-- Days from the civil epoch 1970-01-01 (Howard Hinnant's algorithm, with
truncating division as in the original). -/
def daysFromCivil (y : Int) (m d : Nat) : Int :=
  let y' : Int := if m ≤ 2 then y - 1 else y
  let era : Int := Int.tdiv (if 0 ≤ y' then y' else y' - 399) 400
  let yoe : Int := y' - era * 400
  let mp : Nat := (m + 9) % 12
  let doy : Nat := (153 * mp + 2) / 5 + d - 1
  let doe : Int := yoe * 365 + Int.tdiv yoe 4 - Int.tdiv yoe 100 + (doy : Int)
  era * 146097 + doe - 719468

/-- The UTC instant (epoch seconds) of a civil UTC date-time. -/
def utcFromYmdHms (y : Int) (m d h mi s : Nat) : Int :=
  daysFromCivil y m d * 86400 + ((h * 3600 + mi * 60 + s : Nat) : Int)

/-- Parse the naive local date-time of `"%B %e, %Y %I:%M:%S %p"` and return
its epoch seconds (pretending the local zone were UTC).  `none` on any
template mismatch, trailing input, or calendar-invalid value, as chrono's
parser behaves. -/
def parseDateNaive (l : List Char) : Option Int := do
  let (month, l) ← parseMonth l
  let l := skipSpaces l
  let (day, l) ← parseNum 2 l
  let l ← expectChar ',' l
  let l := skipSpaces l
  let (year, l) ← parseYear l
  let l := skipSpaces l
  let (h12, l) ← parseNum 2 l
  let l ← expectChar ':' l
  let (minute, l) ← parseNum 2 l
  let l ← expectChar ':' l
  let (second, l) ← parseNum 2 l
  let l := skipSpaces l
  let (pm, l) ← parseAmPm l
  if l ≠ [] then none
  else if h12 < 1 ∨ 12 < h12 then none
  else if 59 < minute then none
  else if 60 < second then none
  else if year < -262144 ∨ 262143 < year then none
  else if day < 1 ∨ daysInMonth year month < day then none
  else
    let hour := if pm then (if h12 = 12 then 12 else h12 + 12)
                else (if h12 = 12 then 0 else h12)
    let sec := if second = 60 then 59 else second
    some (daysFromCivil year month day * 86400
      + ((hour * 3600 + minute * 60 + sec : Nat) : Int))

/-- `parse_date`: parse the text at fixed offset UTC-5 with the single
template `"%B %e, %Y %I:%M:%S %p"` and convert to UTC; any parse failure is
the non-retryable error `"unable to parse date"`. -/
def parse_date (date : String) : Except Error Int :=
  match parseDateNaive date.data with
  | none => .error ⟨"unable to parse date", false⟩
  | some t => .ok (t + 5 * 3600)

/-! ## Document extractor: `parse_submission` -/

/-- Abstraction of the parsed HTML document, restricted to the selector
queries `parse_submission` performs.  Each field records the result of one
query: whether a first matching element exists and, nested, the value of the
attribute the code reads from it (`none` when the element lacks the
attribute).  Text-valued fields hold the `join_text_nodes` result (all
descendant text joined and trimmed); `descriptionHtml` holds `inner_html`. -/
structure Doc where
  /-- Joined text of the first `title` element, when one exists. -/
  pageTitle : Option String
  /-- Is an error/notice element (`ERROR_MESSAGE` selector) present? -/
  hasErrorMessage : Bool
  /-- Joined text of the first `TITLE`-selector match. -/
  titleElem : Option String
  /-- First `ARTIST`-selector match: present? and its `href` attribute. -/
  artistHref : Option (Option String)
  /-- First `IMAGE_URL` (`#submissionImg`) match: present? and its `src`. -/
  imageSrc : Option (Option String)
  /-- First `FLASH_OBJECT` (`#flash_embed`) match: present? and its `data`. -/
  flashData : Option (Option String)
  /-- Joined text of the first `RATING`-selector match. -/
  ratingText : Option String
  /-- First `POSTED_AT` match: present? and its `title` attribute. -/
  postedAtTitle : Option (Option String)
  /-- Joined text of every `TAGS`-selector match, in document order. -/
  tags : List String
  /-- `inner_html` of the first `DESCRIPTION`-selector match. -/
  descriptionHtml : Option String
deriving DecidableEq

/-- The observable outcome of `parse_submission`: a Rust panic, an error, the
absent-submission success `Ok(None)`, or a full record `Ok(Some(_))`. -/
inductive ParseOutcome where
  | panicked (msg : String)
  | err (e : Error)
  | noSub
  | sub (s : Submission)
deriving DecidableEq

/-- `extract_url`: read the attribute, prefix `"https:"`, and take the text
after the last `'.'` and after the last `'/'` of the resulting URL. -/
def extract_url (attrVal : Option String) : Option (String × String × String) :=
  match attrVal with
  | none => none
  | some v =>
    let url := "https:" ++ v
    match (splitChar '.' url.data).getLast?, (splitChar '/' url.data).getLast? with
    | some e, some f => some (url, ⟨e⟩, ⟨f⟩)
    | _, _ => none

/-- The two not-found signals of `parse_submission`, as one predicate: the
page title text equals `"System Error"`, or the error/notice element is
present. -/
def notFoundSignal (doc : Doc) : Bool :=
  ((doc.pageTitle.map (fun t => t == "System Error")).getD false) || doc.hasErrorMessage

/-- The asset-reference attribute the content step will read, when content
resolution succeeds: the image marker's `src` if the image marker is
present, otherwise the flash marker's `data`. -/
def contentAttr (doc : Doc) : Option String :=
  match doc.imageSrc with
  | some src? => src?
  | none =>
    match doc.flashData with
    | some data? => data?
    | none => none

/-- The artist extraction: first `ARTIST` match, its `href`, the part after
the first `"/user/"`, with a trailing `'/'` stripped. -/
def docArtist (doc : Doc) : Option String :=
  doc.artistHref.bind fun href? =>
    (href?.bind fun href => splitOnce "/user/".data href.data).map
      fun p => (⟨stripSuffixChar p.2 '/'⟩ : String)

/-- The tail of `parse_submission` after the content triple is bound:
rating, posted-at, tags, description, then the date parse inside the record
construction, in the source's evaluation order. -/
def parseRemaining (id : Int) (title artist : String) (content : Content)
    (ext fn : String) (doc : Doc) : ParseOutcome :=
  match doc.ratingText with
  | none => .err ⟨"unable to select submission rating", false⟩
  | some rtext =>
    match Rating.parse rtext with
    | none => .err ⟨"missing rating", true⟩
    | some rating =>
      match doc.postedAtTitle with
      | none => .err ⟨"unable to select posted at", false⟩
      | some none => .err ⟨"missing title", true⟩
      | some (some posted) =>
        match doc.descriptionHtml with
        | none => .err ⟨"unable to select description", false⟩
        | some description =>
          match parse_date posted with
          | .error e => .err e
          | .ok instant =>
            .sub ⟨id, title, artist, content, ext, none, none, fn, rating,
              instant, doc.tags, description, none, none, none⟩

/-- `parse_submission`: the two not-found signals, then title, artist, the
content triple (image marker first, then flash marker, else the source's
`panic!("invalid submission type")`), then the remaining fields. -/
def parse_submission (id : Int) (doc : Doc) : ParseOutcome :=
  if (doc.pageTitle.map (fun t => t == "System Error")).getD false then .noSub
  else if doc.hasErrorMessage then .noSub
  else
    match doc.titleElem with
    | none => .err ⟨"unable to select title", false⟩
    | some title =>
      match docArtist doc with
      | none => .err ⟨"unable to select artist", false⟩
      | some artist =>
        match doc.imageSrc with
        | some src? =>
          match extract_url src? with
          | none => .err ⟨"missing image url", true⟩
          | some (url, ext, fn) =>
            parseRemaining id title artist (.Image url) ext fn doc
        | none =>
          match doc.flashData with
          | some data? =>
            match extract_url data? with
            | none => .err ⟨"missing flash url", true⟩
            | some (url, ext, fn) =>
              parseRemaining id title artist (.Flash url) ext fn doc
          | none => .panicked "invalid submission type"

/-! ## Fingerprint engine: `calc_image_hash` -/

/-- The outcome of the external `load_page` + `bytes` fetch used by
`calc_image_hash`: a transport error (message), or a response carrying the
server-error flag, the status text used in the error message, and the body. -/
inductive FetchResult where
  | fail (msg : String)
  | resp (serverError : Bool) (statusText : String) (body : List Nat)

/-- The standard base64 alphabet. -/
def b64Char (n : Nat) : Char :=
  "ABCDEFGHIJKLMNOPQRSTUVWXYZabcdefghijklmnopqrstuvwxyz0123456789+/".data.getD n 'A'

/-- Standard base64 with padding, over bytes, as the external
`ImageHash::to_base64` renders the hash bytes. -/
def base64Chunks : List Nat → List Char
  | [] => []
  | [b1] =>
    let b1 := b1 % 256
    [b64Char (b1 / 4), b64Char (b1 % 4 * 16), '=', '=']
  | [b1, b2] =>
    let b1 := b1 % 256
    let b2 := b2 % 256
    [b64Char (b1 / 4), b64Char (b1 % 4 * 16 + b2 / 16), b64Char (b2 % 16 * 4), '=']
  | b1 :: b2 :: b3 :: rest =>
    let c1 := b1 % 256
    let c2 := b2 % 256
    let c3 := b3 % 256
    b64Char (c1 / 4) :: b64Char (c1 % 4 * 16 + c2 / 16)
      :: b64Char (c2 % 16 * 4 + c3 / 64) :: b64Char (c3 % 64)
      :: base64Chunks rest

/-- `to_base64` of hash bytes. -/
def to_base64 (l : List Nat) : String := ⟨base64Chunks l⟩

/-- Big-endian unsigned value of a byte list. -/
def beNat (l : List Nat) : Nat :=
  l.foldl (fun acc b => acc * 256 + b % 256) 0

/-- `i64::from_be_bytes`: big-endian two's-complement signed reinterpretation
of 8 bytes. -/
def i64FromBeBytes (l : List Nat) : Int :=
  let n := beNat l
  if n < 2 ^ 63 then (n : Int) else (n : Int) - 2 ^ 64

/-- `FurAffinity::calc_image_hash`, parameterised by its external effects:
`fetch` is the page load (plus body read), `hashImageFn` the repository's
`hash_image` (external image decode and perceptual hasher, failures carrying
`retry = false` via `From<image::ImageError>`), `sha256` the external
SHA-256 digest.  Flash content short-circuits with `hash` forced to `None`;
image content fetches the bytes and populates the five fingerprint fields. -/
def calc_image_hash (fetch : String → FetchResult)
    (hashImageFn : List Nat → Except Error (List Nat))
    (sha256 : List Nat → List Nat)
    (sub : Submission) : Except Error Submission :=
  match sub.content with
  | .Flash _ => .ok { sub with hash := none }
  | .Image url =>
    match fetch url with
    | .fail msg => .error ⟨msg, true⟩
    | .resp serverError statusText body =>
      if serverError then .error ⟨"got server error: " ++ statusText, true⟩
      else
        match hashImageFn body with
        | .error e => .error e
        | .ok hashBytes =>
          .ok { sub with
            hash := some (to_base64 hashBytes),
            hash_num := some (i64FromBeBytes hashBytes),
            file_size := some body.length,
            file_sha256 := some (sha256 body),
            file := some body }

/-! ## Lemmas about `splitChar` -/

theorem splitChar_ne_nil (sep : Char) (l : List Char) : splitChar sep l ≠ [] := by
  cases l with
  | nil => simp [splitChar]
  | cons c rest =>
    simp only [splitChar]
    cases h : splitChar sep rest with
    | nil => simp
    | cons s ss => dsimp only; split <;> simp

theorem splitChar_singleton (sep : Char) :
    ∀ l s, splitChar sep l = [s] → l = s := by
  intro l
  induction l with
  | nil =>
    intro s h
    simp only [splitChar] at h
    exact (List.cons.inj h).1
  | cons c rest ih =>
    intro s h
    simp only [splitChar] at h
    cases hs : splitChar sep rest with
    | nil => exact absurd hs (splitChar_ne_nil sep rest)
    | cons t ts =>
      rw [hs] at h
      dsimp only at h
      by_cases hc : c = sep
      · rw [if_pos hc] at h
        exact absurd (List.cons.inj h).2 (by simp)
      · rw [if_neg hc] at h
        obtain ⟨h1, h2⟩ := List.cons.inj h
        subst h2
        rw [ih t hs]
        exact h1

theorem splitChar_of_not_mem (sep : Char) :
    ∀ l, sep ∉ l → splitChar sep l = [l] := by
  intro l
  induction l with
  | nil => intro _; simp [splitChar]
  | cons c rest ih =>
    intro hmem
    have hc : ¬ c = sep := fun h => hmem (h ▸ List.mem_cons_self c rest)
    have hrest : sep ∉ rest := fun h => hmem (List.mem_cons_of_mem c h)
    simp only [splitChar]
    rw [ih hrest]
    dsimp only
    rw [if_neg hc]

theorem splitChar_getLast (sep : Char) :
    ∀ l : List Char, ∃ seg, (splitChar sep l).getLast? = some seg ∧
      sep ∉ seg ∧ (l = seg ∨ ∃ q, l = q ++ sep :: seg) := by
  intro l
  induction l with
  | nil => exact ⟨[], by simp [splitChar], by simp, Or.inl rfl⟩
  | cons c rest ih =>
    obtain ⟨seg, hlast, hmem, hdec⟩ := ih
    cases hs : splitChar sep rest with
    | nil => exact absurd hs (splitChar_ne_nil sep rest)
    | cons t ts =>
      rw [hs] at hlast
      by_cases hc : c = sep
      · refine ⟨seg, ?_, hmem, ?_⟩
        · simp only [splitChar]
          rw [hs]
          dsimp only
          rw [if_pos hc, List.getLast?_cons_cons]
          exact hlast
        · right
          rcases hdec with h | ⟨q, hq⟩
          · exact ⟨[], by rw [h, hc]; rfl⟩
          · exact ⟨sep :: q, by rw [hq, hc]; rfl⟩
      · cases ts with
        | nil =>
          have hrt : rest = t := splitChar_singleton sep rest t hs
          have hseg : seg = t := by
            rw [List.getLast?_singleton] at hlast
            exact (Option.some.inj hlast).symm
          refine ⟨c :: t, ?_, ?_, Or.inl (by rw [hrt])⟩
          · simp only [splitChar]
            rw [hs]
            dsimp only
            rw [if_neg hc, List.getLast?_singleton]
          · intro hin
            rcases List.mem_cons.mp hin with h | h
            · exact hc h.symm
            · exact hmem (by rw [hseg]; exact h)
        | cons t2 ts' =>
          refine ⟨seg, ?_, hmem, ?_⟩
          · simp only [splitChar]
            rw [hs]
            dsimp only
            rw [if_neg hc, List.getLast?_cons_cons]
            rw [List.getLast?_cons_cons] at hlast
            exact hlast
          · right
            rcases hdec with h | ⟨q, hq⟩
            · exfalso
              have hnm : sep ∉ rest := by rw [h]; exact hmem
              have := splitChar_of_not_mem sep rest hnm
              rw [hs] at this
              exact absurd (List.cons.inj this).2 (by simp)
            · exact ⟨c :: q, by rw [hq]; rfl⟩

theorem splitChar_getLast_props (sep : Char) (l seg : List Char)
    (h : (splitChar sep l).getLast? = some seg) :
    sep ∉ seg ∧ (l = seg ∨ ∃ q, l = q ++ sep :: seg) := by
  obtain ⟨seg', h', hm, hd⟩ := splitChar_getLast sep l
  rw [h] at h'
  rw [← Option.some.inj h'] at hm hd
  exact ⟨hm, hd⟩

theorem splitChar_getLast_suffix (sep : Char) (l seg : List Char)
    (h : (splitChar sep l).getLast? = some seg) : seg <:+ l := by
  rcases (splitChar_getLast_props sep l seg h).2 with h1 | ⟨q, hq⟩
  · rw [h1]
  · rw [hq]
    exact ⟨q ++ [sep], by simp⟩

/-- The key substring relation behind the `extension`/`filename` invariant:
when the text after the last `'.'` contains no `'/'`, it is a suffix of the
text after the last `'/'`. -/
theorem ext_suffix_fn (url ext fn : List Char)
    (hext : (splitChar '.' url).getLast? = some ext)
    (hfn : (splitChar '/' url).getLast? = some fn)
    (hno : '/' ∉ ext) : ext <:+ fn := by
  have hext_suf : ext <:+ url := splitChar_getLast_suffix '.' url ext hext
  obtain ⟨_, hfn_dec⟩ := splitChar_getLast_props '/' url fn hfn
  rcases hfn_dec with hurl | ⟨q, hq⟩
  · rw [hurl] at hext_suf
    exact hext_suf
  · have hfn_suf : fn <:+ url := splitChar_getLast_suffix '/' url fn hfn
    rcases List.suffix_or_suffix_of_suffix hext_suf hfn_suf with h | h
    · exact h
    · obtain ⟨d, hd⟩ := h
      rcases List.eq_nil_or_concat d with hdn | ⟨d2, x, hdx⟩
      · rw [hdn, List.nil_append] at hd
        rw [hd]
      · exfalso
        obtain ⟨p2, hp2⟩ := hext_suf
        rw [← hd, hq] at hp2
        have hp3 : (p2 ++ d) ++ fn = (q ++ ['/']) ++ fn := by
          rw [List.append_assoc p2 d fn, hp2]
          simp
        have hcan : p2 ++ d = q ++ ['/'] := List.append_inj_left' hp3 rfl
        rw [List.concat_eq_append] at hdx
        have hxlast : (p2 ++ d).getLast? = some x := by
          rw [hdx, ← List.append_assoc, List.getLast?_concat]
        rw [hcan, List.getLast?_concat] at hxlast
        have hx : x = '/' := (Option.some.inj hxlast).symm
        apply hno
        rw [← hd, hdx, hx]
        exact List.mem_append.mpr (Or.inl (List.mem_append.mpr (Or.inr (by simp))))

/-! ## Lemmas about `extract_url` -/

theorem extract_url_some (v : String) :
    ∃ ext fn, extract_url (some v) = some ("https:" ++ v, ext, fn) := by
  obtain ⟨e, he, -, -⟩ := splitChar_getLast '.' ("https:" ++ v).data
  obtain ⟨f, hf, -, -⟩ := splitChar_getLast '/' ("https:" ++ v).data
  refine ⟨⟨e⟩, ⟨f⟩, ?_⟩
  unfold extract_url
  dsimp only
  rw [he, hf]

theorem extract_url_eq (o : Option String) (url ext fn : String)
    (h : extract_url o = some (url, ext, fn)) :
    ∃ v, o = some v ∧ url = "https:" ++ v
      ∧ (splitChar '.' url.data).getLast? = some ext.data
      ∧ (splitChar '/' url.data).getLast? = some fn.data := by
  cases o with
  | none => simp [extract_url] at h
  | some v =>
    unfold extract_url at h
    dsimp only at h
    obtain ⟨e, he, -, -⟩ := splitChar_getLast '.' ("https:" ++ v).data
    obtain ⟨f, hf, -, -⟩ := splitChar_getLast '/' ("https:" ++ v).data
    rw [he, hf] at h
    dsimp only at h
    obtain ⟨h1, h2, h3⟩ : "https:" ++ v = url ∧ (⟨e⟩ : String) = ext ∧ (⟨f⟩ : String) = fn := by
      have := Option.some.inj h
      exact ⟨congrArg Prod.fst this, congrArg Prod.fst (congrArg Prod.snd this),
        congrArg Prod.snd (congrArg Prod.snd this)⟩
    subst h1
    subst h2
    subst h3
    exact ⟨v, rfl, rfl, he, hf⟩

/-! ## Lemmas about `parseRemaining` and `parse_submission` -/

theorem parseRemaining_sub (id : Int) (title artist : String) (content : Content)
    (ext fn : String) (doc : Doc) (s : Submission)
    (h : parseRemaining id title artist content ext fn doc = .sub s) :
    s.content = content ∧ s.ext = ext ∧ s.filename = fn ∧
    doc.ratingText ≠ none ∧ (∃ p, doc.postedAtTitle = some (some p)) ∧
    doc.descriptionHtml ≠ none := by
  unfold parseRemaining at h
  cases hr : doc.ratingText with
  | none => rw [hr] at h; simp at h
  | some r =>
    rw [hr] at h
    dsimp only at h
    cases hrp : Rating.parse r with
    | none => rw [hrp] at h; simp at h
    | some rat =>
      rw [hrp] at h
      dsimp only at h
      cases hp : doc.postedAtTitle with
      | none => rw [hp] at h; simp at h
      | some p? =>
        rw [hp] at h
        cases p? with
        | none => simp at h
        | some p =>
          dsimp only at h
          cases hd : doc.descriptionHtml with
          | none => rw [hd] at h; simp at h
          | some dsc =>
            rw [hd] at h
            dsimp only at h
            cases hpd : parse_date p with
            | error e => rw [hpd] at h; simp at h
            | ok t =>
              rw [hpd] at h
              dsimp only at h
              injection h with h'
              subst h'
              exact ⟨rfl, rfl, rfl, by simp, ⟨p, rfl⟩, by simp⟩

theorem parseRemaining_ne_panicked (id : Int) (title artist : String)
    (content : Content) (ext fn : String) (doc : Doc) (msg : String) :
    parseRemaining id title artist content ext fn doc ≠ .panicked msg := by
  intro h
  unfold parseRemaining at h
  repeat' split at h
  all_goals simp at h

theorem parseRemaining_rating_missing (id : Int) (title artist : String)
    (content : Content) (ext fn : String) (doc : Doc)
    (h : doc.ratingText = none) :
    parseRemaining id title artist content ext fn doc =
      .err ⟨"unable to select submission rating", false⟩ := by
  unfold parseRemaining
  rw [h]

theorem parseRemaining_rating_unrecognized (id : Int) (title artist : String)
    (content : Content) (ext fn : String) (doc : Doc) (r : String)
    (h : doc.ratingText = some r) (h2 : Rating.parse r = none) :
    parseRemaining id title artist content ext fn doc = .err ⟨"missing rating", true⟩ := by
  unfold parseRemaining
  rw [h]
  dsimp only
  rw [h2]

theorem parseRemaining_posted_attr_missing (id : Int) (title artist : String)
    (content : Content) (ext fn : String) (doc : Doc) (r : String) (rat : Rating)
    (h : doc.ratingText = some r) (h2 : Rating.parse r = some rat)
    (h3 : doc.postedAtTitle = some none) :
    parseRemaining id title artist content ext fn doc = .err ⟨"missing title", true⟩ := by
  unfold parseRemaining
  rw [h]
  dsimp only
  rw [h2]
  dsimp only
  rw [h3]

theorem parseRemaining_posted_missing (id : Int) (title artist : String)
    (content : Content) (ext fn : String) (doc : Doc) (r : String) (rat : Rating)
    (h : doc.ratingText = some r) (h2 : Rating.parse r = some rat)
    (h3 : doc.postedAtTitle = none) :
    parseRemaining id title artist content ext fn doc =
      .err ⟨"unable to select posted at", false⟩ := by
  unfold parseRemaining
  rw [h]
  dsimp only
  rw [h2]
  dsimp only
  rw [h3]

theorem parseRemaining_description_missing (id : Int) (title artist : String)
    (content : Content) (ext fn : String) (doc : Doc) (r : String) (rat : Rating) (p : String)
    (h : doc.ratingText = some r) (h2 : Rating.parse r = some rat)
    (h3 : doc.postedAtTitle = some (some p)) (h4 : doc.descriptionHtml = none) :
    parseRemaining id title artist content ext fn doc =
      .err ⟨"unable to select description", false⟩ := by
  unfold parseRemaining
  rw [h]
  dsimp only
  rw [h2]
  dsimp only
  rw [h3]
  dsimp only
  rw [h4]

/-- C6: for every document containing a recognized not-found signal (page
title text equal to `"System Error"`, or the error/notice element present),
`parse_submission` returns `Ok(None)` — never an error — regardless of every
other field of the document. -/
theorem not_found_returns_absent (id : Int) (doc : Doc)
    (h : doc.pageTitle = some "System Error" ∨ doc.hasErrorMessage = true) :
    parse_submission id doc = .noSub := by
  unfold parse_submission
  rcases h with h | h
  · simp [h]
  · split
    · rfl
    · simp [h]

theorem parse_submission_reduce (id : Int) (doc : Doc) (title artist : String)
    (h0 : notFoundSignal doc = false)
    (h3 : doc.titleElem = some title)
    (h4 : docArtist doc = some artist) :
    (∀ v, doc.imageSrc = some (some v) →
      ∃ ext fn, parse_submission id doc =
        parseRemaining id title artist (.Image ("https:" ++ v)) ext fn doc) ∧
    (∀ v, doc.imageSrc = none → doc.flashData = some (some v) →
      ∃ ext fn, parse_submission id doc =
        parseRemaining id title artist (.Flash ("https:" ++ v)) ext fn doc) := by
  unfold notFoundSignal at h0
  obtain ⟨h1, h2⟩ := Bool.or_eq_false_iff.mp h0
  constructor
  · intro v hv
    obtain ⟨ext, fn, hex⟩ := extract_url_some v
    refine ⟨ext, fn, ?_⟩
    unfold parse_submission
    simp [h1, h2, h3, h4, hv, hex]
  · intro v hv0 hv
    obtain ⟨ext, fn, hex⟩ := extract_url_some v
    refine ⟨ext, fn, ?_⟩
    unfold parse_submission
    simp [h1, h2, h3, h4, hv0, hv, hex]

theorem parse_submission_title_missing (id : Int) (doc : Doc)
    (h0 : notFoundSignal doc = false) (h : doc.titleElem = none) :
    parse_submission id doc = .err ⟨"unable to select title", false⟩ := by
  unfold notFoundSignal at h0
  obtain ⟨h1, h2⟩ := Bool.or_eq_false_iff.mp h0
  unfold parse_submission
  simp [h1, h2, h]

theorem parse_submission_artist_missing (id : Int) (doc : Doc) (title : String)
    (h0 : notFoundSignal doc = false) (ht : doc.titleElem = some title)
    (h : docArtist doc = none) :
    parse_submission id doc = .err ⟨"unable to select artist", false⟩ := by
  unfold notFoundSignal at h0
  obtain ⟨h1, h2⟩ := Bool.or_eq_false_iff.mp h0
  unfold parse_submission
  simp [h1, h2, ht, h]

theorem parse_submission_sub_inv (id : Int) (doc : Doc) (s : Submission)
    (h : parse_submission id doc = .sub s) :
    doc.titleElem ≠ none ∧ docArtist doc ≠ none ∧
    (∃ v, (doc.imageSrc = some (some v) ∧ s.content = .Image ("https:" ++ v) ∨
           doc.imageSrc = none ∧ doc.flashData = some (some v) ∧
             s.content = .Flash ("https:" ++ v)) ∧
      (splitChar '.' ("https:" ++ v).data).getLast? = some s.ext.data ∧
      (splitChar '/' ("https:" ++ v).data).getLast? = some s.filename.data) ∧
    doc.ratingText ≠ none ∧ (∃ p, doc.postedAtTitle = some (some p)) ∧
    doc.descriptionHtml ≠ none := by
  unfold parse_submission at h
  split at h
  · simp at h
  · split at h
    · simp at h
    · cases ht : doc.titleElem with
      | none => rw [ht] at h; simp at h
      | some title =>
        rw [ht] at h
        dsimp only at h
        cases ha : docArtist doc with
        | none => rw [ha] at h; simp at h
        | some artist =>
          rw [ha] at h
          dsimp only at h
          cases hi : doc.imageSrc with
          | some src? =>
            rw [hi] at h
            dsimp only at h
            cases hex : extract_url src? with
            | none => rw [hex] at h; simp at h
            | some triple =>
              rw [hex] at h
              obtain ⟨url, ext, fn⟩ := triple
              dsimp only at h
              obtain ⟨hc, he, hf, hr, hp, hd⟩ := parseRemaining_sub _ _ _ _ _ _ _ _ h
              obtain ⟨v, hv, hurl, hext, hfn⟩ := extract_url_eq src? url ext fn hex
              subst hurl
              refine ⟨by simp, by simp, ⟨v, Or.inl ⟨by rw [hv], by rw [hc]⟩, ?_, ?_⟩,
                hr, hp, hd⟩
              · rw [← he] at hext
                exact hext
              · rw [← hf] at hfn
                exact hfn
          | none =>
            rw [hi] at h
            dsimp only at h
            cases hfl : doc.flashData with
            | some data? =>
              rw [hfl] at h
              dsimp only at h
              cases hex : extract_url data? with
              | none => rw [hex] at h; simp at h
              | some triple =>
                rw [hex] at h
                obtain ⟨url, ext, fn⟩ := triple
                dsimp only at h
                obtain ⟨hc, he, hf, hr, hp, hd⟩ := parseRemaining_sub _ _ _ _ _ _ _ _ h
                obtain ⟨v, hv, hurl, hext, hfn⟩ := extract_url_eq data? url ext fn hex
                subst hurl
                refine ⟨by simp, by simp, ⟨v, Or.inr ⟨rfl, by rw [hv], by rw [hc]⟩, ?_, ?_⟩,
                  hr, hp, hd⟩
                · rw [← he] at hext
                  exact hext
                · rw [← hf] at hfn
                  exact hfn
            | none =>
              rw [hfl] at h
              simp at h

theorem parse_submission_panicked_inv (id : Int) (doc : Doc) (msg : String)
    (h : parse_submission id doc = .panicked msg) :
    doc.imageSrc = none ∧ doc.flashData = none ∧ msg = "invalid submission type" := by
  unfold parse_submission at h
  split at h
  · simp at h
  · split at h
    · simp at h
    · cases ht : doc.titleElem with
      | none => rw [ht] at h; simp at h
      | some title =>
        rw [ht] at h
        dsimp only at h
        cases ha : docArtist doc with
        | none => rw [ha] at h; simp at h
        | some artist =>
          rw [ha] at h
          dsimp only at h
          cases hi : doc.imageSrc with
          | some src? =>
            rw [hi] at h
            dsimp only at h
            cases hex : extract_url src? with
            | none => rw [hex] at h; simp at h
            | some triple =>
              rw [hex] at h
              obtain ⟨url, ext, fn⟩ := triple
              dsimp only at h
              exact absurd h (parseRemaining_ne_panicked _ _ _ _ _ _ _ _)
          | none =>
            rw [hi] at h
            dsimp only at h
            cases hfl : doc.flashData with
            | some data? =>
              rw [hfl] at h
              dsimp only at h
              cases hex : extract_url data? with
              | none => rw [hex] at h; simp at h
              | some triple =>
                rw [hex] at h
                obtain ⟨url, ext, fn⟩ := triple
                dsimp only at h
                exact absurd h (parseRemaining_ne_panicked _ _ _ _ _ _ _ _)
            | none =>
              rw [hfl] at h
              dsimp only at h
              injection h with h'
              exact ⟨rfl, rfl, h'.symm⟩

/-! ## Lemmas about `calc_image_hash` -/

theorem calc_image_hash_ok_inv (F : String → FetchResult)
    (H : List Nat → Except Error (List Nat)) (G : List Nat → List Nat)
    (sub sub' : Submission)
    (h : calc_image_hash F H G sub = .ok sub') :
    (sub' = { sub with hash := none } ∧ ∃ u, sub.content = .Flash u) ∨
    (∃ url body hb, sub.content = .Image url ∧ H body = .ok hb ∧
      sub' = { sub with
        hash := some (to_base64 hb),
        hash_num := some (i64FromBeBytes hb),
        file_size := some body.length,
        file_sha256 := some (G body),
        file := some body }) := by
  unfold calc_image_hash at h
  cases hc : sub.content with
  | Flash u =>
    rw [hc] at h
    dsimp only at h
    injection h with h'
    exact Or.inl ⟨h'.symm, u, rfl⟩
  | Image url =>
    rw [hc] at h
    dsimp only at h
    cases hf : F url with
    | fail msg => rw [hf] at h; simp at h
    | resp se st body =>
      rw [hf] at h
      dsimp only at h
      split at h
      · simp at h
      · cases hh : H body with
        | error e => rw [hh] at h; simp at h
        | ok hb =>
          rw [hh] at h
          dsimp only at h
          injection h with h'
          exact Or.inr ⟨url, body, hb, rfl, hh, h'.symm⟩

/-! ## Concrete documents and records used by witnesses and counterexamples -/

/-- A fully well-formed document, with both content markers present. -/
def docFull : Doc :=
  ⟨some "Bilberry fox by deadrussiansoul", false, some "Bilberry fox",
   some (some "/user/deadrussiansoul/"),
   some (some "//d.furaffinity.net/art/a/1555431774/pic.png"),
   some (some "//d.furaffinity.net/art/a/anim.swf"),
   some "General", some (some "June 17, 2025 12:00:00 PM"),
   ["fox", "bilberry", "male"], some "<p>desc</p>"⟩

/-- The record `parse_submission 7 docFull` produces. -/
def subFull : Submission :=
  ⟨7, "Bilberry fox", "deadrussiansoul",
   .Image "https://d.furaffinity.net/art/a/1555431774/pic.png", "png", none, none,
   "pic.png", .General, 1750179600, ["fox", "bilberry", "male"], "<p>desc</p>",
   none, none, none⟩

/-- A document with neither content marker (otherwise well-formed). -/
def docNoMarkers : Doc :=
  ⟨some "Art page", false, some "A drawing", some (some "/user/alice/"),
   none, none, some "General", some (some "June 17, 2025 12:00:00 PM"),
   [], some "<p>d</p>"⟩

/-- A document whose image marker is present but lacks its `src` attribute,
and whose rating location matches nothing. -/
def docAttrless : Doc :=
  ⟨some "Art page", false, some "Sketch", some (some "/user/bob/"),
   some none, none, none, some (some "June 17, 2025 12:00:00 PM"),
   [], some "<p>d</p>"⟩

/-- A document whose rating text is not one of the three recognized values. -/
def docBadRating : Doc :=
  ⟨some "Art page", false, some "Painting", some (some "/user/carol/"),
   some (some "//img.net/x/y.jpg"), none, some "Explicit",
   some (some "June 17, 2025 12:00:00 PM"), ["a"], some "<p>z</p>"⟩

/-- A document whose title location matches nothing. -/
def docNoTitle : Doc :=
  ⟨some "Art page", false, none, some (some "/user/dan/"),
   some (some "//img.net/a/b.png"), none, some "Mature",
   some (some "June 17, 2025 12:00:00 PM"), [], some "<p>q</p>"⟩

/-- A document whose posted-at element is present but lacks its `title`
attribute. -/
def docPostedAttrless : Doc :=
  ⟨some "pg", false, some "T5", some (some "/user/eve/"),
   some (some "//img.net/c/d.gif"), none, some "Adult", some none,
   [], some "<p>r</p>"⟩

/-- A document whose posted-at location matches nothing. -/
def docNoPosted : Doc :=
  ⟨some "pg", false, some "T6", some (some "/user/frank/"),
   some (some "//img.net/e/f.gif"), none, some "General", none,
   [], some "<p>s</p>"⟩

/-- A document carrying the `"System Error"` page-title sentinel. -/
def docSystemError : Doc :=
  ⟨some "System Error", false, none, none, none, none, none, none, [], none⟩

/-- A flash submission whose fingerprint fields were (artificially) already
populated. -/
def subFlashStale : Submission :=
  ⟨9, "anim", "gina", .Flash "https://img.net/a.swf", "swf", some "stale-hash",
   some 10, "a.swf", .Mature, 0, [], "<p>v</p>", none, none, none⟩

/-- A flash submission with fingerprint fields absent. -/
def subFlashClean : Submission :=
  ⟨10, "anim2", "hank", .Flash "https://img.net/b.swf", "swf", none, none,
   "b.swf", .Adult, 5, [], "<p>w</p>", none, none, none⟩

/-- An image submission with fingerprint fields absent. -/
def subImageIn : Submission :=
  ⟨11, "pic", "ivy", .Image "https://img.net/c.png", "png", none, none,
   "c.png", .General, 6, [], "<p>x</p>", none, none, none⟩

/-- A fetch stub returning a one-byte body. -/
def fetch9 : String → FetchResult := fun _ => .resp false "200 OK" [9]

/-- A perceptual-hash stub returning eight fixed bytes. -/
def hashFn9 : List Nat → Except Error (List Nat) := fun _ => .ok [1, 2, 3, 4, 5, 6, 7, 8]

/-- A digest stub. -/
def sha9 : List Nat → List Nat := fun b => b

/-- The record `calc_image_hash fetch9 hashFn9 sha9 subImageIn` produces. -/
def subImageOut : Submission :=
  { subImageIn with
    hash := some (to_base64 [1, 2, 3, 4, 5, 6, 7, 8]),
    hash_num := some (i64FromBeBytes [1, 2, 3, 4, 5, 6, 7, 8]),
    file_size := some 1,
    file_sha256 := some [9],
    file := some [9] }

/-- A fetch stub that fails at the transport layer. -/
def fetchFail : String → FetchResult := fun _ => .fail "connection reset"

/-- A perceptual-hash stub that fails to decode. -/
def hashFnFail : List Nat → Except Error (List Nat) := fun _ => .error ⟨"decode", false⟩

/-! ## The claims -/

/-- C1 (counterexample): `parse_date` does not strip ordinal suffixes and
does not accept the seconds-less template, so the date string
`"Mar 23rd, 2019 12:46 AM"` is rejected with a non-retryable error instead
of mapping to 2019-03-23T05:46:00Z. -/
theorem parse_date_ordinal_fails :
    parse_date "Mar 23rd, 2019 12:46 AM" = .error ⟨"unable to parse date", false⟩ := rfl

/-- C1 (amended): `parse_date` deterministically parses exactly the
seconds-bearing template `"%B %e, %Y %I:%M:%S %p"` (month name full or
abbreviated), interprets the result at fixed offset UTC-5, and returns the
UTC instant: `"June 17, 2025 12:00:00 PM"` maps to 2025-06-17T17:00:00Z and
`"March 23, 2019 12:46:00 AM"` (also with abbreviated month) maps to
2019-03-23T05:46:00Z; ordinal suffixes are not stripped and the
seconds-less template is not accepted. -/
theorem parse_date_template_values :
    parse_date "June 17, 2025 12:00:00 PM" = .ok (utcFromYmdHms 2025 6 17 17 0 0) ∧
    parse_date "March 23, 2019 12:46:00 AM" = .ok (utcFromYmdHms 2019 3 23 5 46 0) ∧
    parse_date "Mar 23, 2019 12:46:00 AM" = .ok (utcFromYmdHms 2019 3 23 5 46 0) :=
  ⟨rfl, rfl, rfl⟩

/-- C2 (counterexample): a document in which neither the raster-image marker
nor the animation/embed marker is present makes `parse_submission` panic
(`panic!("invalid submission type")`) instead of returning a reported,
non-retryable error. -/
theorem parse_submission_no_markers_panics :
    parse_submission 12 docNoMarkers = .panicked "invalid submission type" := by decide

/-- C2 (amended): the only panic in `parse_submission` is the
both-markers-absent case — whenever it panics, neither marker element was
present and the panic message is `"invalid submission type"`; every other
failure is a reported error. -/
theorem parse_submission_panic_only_no_markers (id : Int) (doc : Doc) (msg : String)
    (h : parse_submission id doc = .panicked msg) :
    doc.imageSrc = none ∧ doc.flashData = none ∧ msg = "invalid submission type" :=
  parse_submission_panicked_inv id doc msg h

/-- C2 (witness): the amended claim applied to a concrete panicking input. -/
theorem parse_submission_panic_witness :
    docNoMarkers.imageSrc = none ∧ docNoMarkers.flashData = none ∧
    "invalid submission type" = "invalid submission type" :=
  parse_submission_panic_only_no_markers 12 docNoMarkers "invalid submission type" (by decide)

/-- C3 (counterexample): a present rating element whose text `"Explicit"` is
not one of the three recognized values yields the error `"missing rating"`
with `retry = true`, not a non-retryable parse failure. -/
theorem unrecognized_rating_retry_true :
    parse_submission 13 docBadRating = .err ⟨"missing rating", true⟩ ∧
    Rating.parse "Explicit" = none := ⟨by decide, rfl⟩

/-- C3 (amended): for every document whose rating element is present but
whose rating text is not one of `"General"`, `"Mature"`, `"Adult"`,
`parse_submission` returns the error `"missing rating"` with `retry = true`
(never a fourth rating variant). -/
theorem parse_submission_unrecognized_rating (id : Int) (doc : Doc)
    (title artist v r : String)
    (h0 : notFoundSignal doc = false)
    (ht : doc.titleElem = some title)
    (ha : docArtist doc = some artist)
    (hc : doc.imageSrc = some (some v) ∨ (doc.imageSrc = none ∧ doc.flashData = some (some v)))
    (hr : doc.ratingText = some r)
    (hp : Rating.parse r = none) :
    parse_submission id doc = .err ⟨"missing rating", true⟩ := by
  obtain ⟨hred1, hred2⟩ := parse_submission_reduce id doc title artist h0 ht ha
  rcases hc with hv | ⟨hv0, hv⟩
  · obtain ⟨ext, fn, heq⟩ := hred1 v hv
    rw [heq]
    exact parseRemaining_rating_unrecognized _ _ _ _ _ _ _ _ hr hp
  · obtain ⟨ext, fn, heq⟩ := hred2 v hv0 hv
    rw [heq]
    exact parseRemaining_rating_unrecognized _ _ _ _ _ _ _ _ hr hp

/-- C3 (witness): the amended claim applied to a concrete document. -/
theorem parse_submission_unrecognized_rating_witness :
    parse_submission 13 docBadRating = .err ⟨"missing rating", true⟩ :=
  parse_submission_unrecognized_rating 13 docBadRating "Painting" "carol"
    "//img.net/x/y.jpg" "Explicit" (by decide) (by decide) (by decide)
    (Or.inl (by decide)) (by decide) (by decide)

/-- C4 (counterexample): for a content reference whose path component holds
no `'.'`, the extension is the text after the final `'.'` of the whole URL
(here crossing the host), not a single-letter placeholder, and it is not a
substring of the URL's final path segment. -/
theorem extension_not_from_path_component :
    extract_url (some "//t.example/img") =
      some ("https://t.example/img", "example/img", "img") ∧
    ¬ ("example/img".data <:+: "img".data) :=
  ⟨by decide, fun hinf => absurd hinf.length_le (by decide)⟩

/-- C4 (amended): for every successfully returned Submission, the extension
is the text after the final `'.'` of the full content URL (the whole URL
when it holds no `'.'`, with no placeholder default), the filename is the
text after the final `'/'`; both are derived from the same URL, both are
suffixes of that URL, and the extension is a substring of the final path
segment whenever it contains no `'/'` (i.e. whenever the URL's final `'.'`
lies inside the final path segment). -/
theorem submission_ext_filename_consistent (id : Int) (doc : Doc) (s : Submission)
    (h : parse_submission id doc = .sub s) :
    (splitChar '.' s.content.url.data).getLast? = some s.ext.data ∧
    (splitChar '/' s.content.url.data).getLast? = some s.filename.data ∧
    s.ext.data <:+ s.content.url.data ∧
    s.filename.data <:+ s.content.url.data ∧
    ('/' ∉ s.ext.data → s.ext.data <:+ s.filename.data) := by
  obtain ⟨-, -, ⟨v, hv, hext, hfn⟩, -, -, -⟩ := parse_submission_sub_inv id doc s h
  have hurl : s.content.url = "https:" ++ v := by
    rcases hv with ⟨-, hcon⟩ | ⟨-, -, hcon⟩ <;> rw [hcon] <;> rfl
  rw [hurl]
  exact ⟨hext, hfn, splitChar_getLast_suffix _ _ _ hext,
    splitChar_getLast_suffix _ _ _ hfn,
    fun hno => ext_suffix_fn _ _ _ hext hfn hno⟩

/-- C4 (witness): the amended claim applied to a concrete document, with the
no-slash condition discharged. -/
theorem submission_ext_filename_witness :
    (splitChar '.' subFull.content.url.data).getLast? = some subFull.ext.data ∧
    (splitChar '/' subFull.content.url.data).getLast? = some subFull.filename.data ∧
    subFull.ext.data <:+ subFull.content.url.data ∧
    subFull.filename.data <:+ subFull.content.url.data ∧
    subFull.ext.data <:+ subFull.filename.data := by
  obtain ⟨h1, h2, h3, h4, h5⟩ := submission_ext_filename_consistent 7 docFull subFull (by decide)
  exact ⟨h1, h2, h3, h4, h5 (by decide)⟩

/-- C5 (counterexample): on an animation-typed record whose `hash` field was
already populated, `calc_image_hash` is not a no-op: it forces `hash` to
`None` (while leaving `hash_num` and the other fingerprint fields as they
were), so the returned record differs from the input. -/
theorem calc_image_hash_flash_not_noop :
    calc_image_hash fetchFail hashFnFail (fun b => b) subFlashStale =
      .ok { subFlashStale with hash := none } ∧
    ({ subFlashStale with hash := none } : Submission) ≠ subFlashStale :=
  ⟨rfl, by decide⟩

/-- C5 (amended): whenever `calc_image_hash` succeeds it leaves every
non-fingerprint field (id, title, artist, content, ext, filename, rating,
posted_at, tags, description) unchanged; and on an animation-typed record it
returns the input record with the `hash` field forced to `None` and all
other fields untouched — a no-op exactly when the input's fingerprint
fields were already absent. -/
theorem calc_image_hash_frame (F : String → FetchResult)
    (H : List Nat → Except Error (List Nat)) (G : List Nat → List Nat)
    (sub sub' : Submission)
    (h : calc_image_hash F H G sub = .ok sub') :
    (sub'.id = sub.id ∧ sub'.title = sub.title ∧ sub'.artist = sub.artist ∧
     sub'.content = sub.content ∧ sub'.ext = sub.ext ∧ sub'.filename = sub.filename ∧
     sub'.rating = sub.rating ∧ sub'.posted_at = sub.posted_at ∧
     sub'.tags = sub.tags ∧ sub'.description = sub.description) ∧
    (∀ u, sub.content = .Flash u → sub' = { sub with hash := none }) := by
  rcases calc_image_hash_ok_inv F H G sub sub' h with ⟨hs, u, hc⟩ | ⟨url, body, hb, hc, hH, hs⟩
  · subst hs
    exact ⟨⟨rfl, rfl, rfl, rfl, rfl, rfl, rfl, rfl, rfl, rfl⟩, fun _ _ => rfl⟩
  · subst hs
    refine ⟨⟨rfl, rfl, rfl, rfl, rfl, rfl, rfl, rfl, rfl, rfl⟩, fun u hu => ?_⟩
    rw [hc] at hu
    exact absurd hu (by simp)

/-- C5 (witness): the amended claim applied to a concrete animation record
with fingerprint fields absent, on which the call is a genuine no-op. -/
theorem calc_image_hash_frame_witness :
    subFlashClean.id = subFlashClean.id ∧
    subFlashClean = { subFlashClean with hash := none } :=
  ⟨(calc_image_hash_frame fetchFail hashFnFail (fun b => b) subFlashClean
      subFlashClean rfl).1.1,
   (calc_image_hash_frame fetchFail hashFnFail (fun b => b) subFlashClean
      subFlashClean rfl).2 "https://img.net/b.swf" rfl⟩

/-- C6 (witness): the claim applied to a concrete document carrying the
page-title sentinel, every other field absent. -/
theorem not_found_returns_absent_witness :
    parse_submission 41 docSystemError = .noSub :=
  not_found_returns_absent 41 docSystemError (Or.inl rfl)

/-- C7: whenever `parse_submission` returns a Submission, its content
variant matches the marker element present — `Image` whenever the
raster-image marker is present (regardless of the animation marker, so the
image variant deterministically wins when both are present), and `Flash`
exactly when only the animation/embed marker is present — and the URL is the
`"https:"`-prefixed marker attribute. -/
theorem content_variant_matches_marker (id : Int) (doc : Doc) (s : Submission)
    (h : parse_submission id doc = .sub s) :
    (∃ v, doc.imageSrc = some (some v) ∧ s.content = .Image ("https:" ++ v)) ∨
    (doc.imageSrc = none ∧
      ∃ v, doc.flashData = some (some v) ∧ s.content = .Flash ("https:" ++ v)) := by
  obtain ⟨-, -, ⟨v, hv, -, -⟩, -, -, -⟩ := parse_submission_sub_inv id doc s h
  rcases hv with ⟨h1, h2⟩ | ⟨h1, h2, h3⟩
  · exact Or.inl ⟨v, h1, h2⟩
  · exact Or.inr ⟨h1, v, h2, h3⟩

/-- C7 (witness): the claim applied to a concrete document carrying both
markers; the image variant is chosen. -/
theorem content_variant_matches_marker_witness :
    (∃ v, docFull.imageSrc = some (some v) ∧ subFull.content = .Image ("https:" ++ v)) ∨
    (docFull.imageSrc = none ∧
      ∃ v, docFull.flashData = some (some v) ∧ subFull.content = .Flash ("https:" ++ v)) :=
  content_variant_matches_marker 7 docFull subFull (by decide)

/-- C8 (counterexample): a document that passes the existence checks, whose
rating location matches nothing, but whose image marker lacks its `src`
attribute: `parse_submission` returns the error `"missing image url"` with
`retry = true`, which is not a non-retryable error naming the missing
rating field. -/
theorem missing_rating_not_named_counterexample :
    parse_submission 22 docAttrless = .err ⟨"missing image url", true⟩ ∧
    docAttrless.ratingText = none ∧ notFoundSignal docAttrless = false := by decide

/-- C8 (amended): for every document that passes the existence checks, a
missing title or artist location yields the non-retryable error naming that
field; once a content marker with its asset attribute is present, a missing
rating, posted-at, or description location likewise yields the
non-retryable error naming that field; and whenever any of the five
locations matches nothing, no Submission is ever returned. -/
theorem missing_field_errors (id : Int) (doc : Doc)
    (h0 : notFoundSignal doc = false) :
    (doc.titleElem = none →
      parse_submission id doc = .err ⟨"unable to select title", false⟩) ∧
    (∀ title, doc.titleElem = some title → docArtist doc = none →
      parse_submission id doc = .err ⟨"unable to select artist", false⟩) ∧
    (∀ title artist v, doc.titleElem = some title → docArtist doc = some artist →
      (doc.imageSrc = some (some v) ∨ (doc.imageSrc = none ∧ doc.flashData = some (some v))) →
      (doc.ratingText = none →
        parse_submission id doc = .err ⟨"unable to select submission rating", false⟩) ∧
      (∀ r rat, doc.ratingText = some r → Rating.parse r = some rat →
        (doc.postedAtTitle = none →
          parse_submission id doc = .err ⟨"unable to select posted at", false⟩) ∧
        (∀ p, doc.postedAtTitle = some (some p) → doc.descriptionHtml = none →
          parse_submission id doc = .err ⟨"unable to select description", false⟩))) ∧
    ((doc.titleElem = none ∨ docArtist doc = none ∨ doc.ratingText = none ∨
      doc.postedAtTitle = none ∨ doc.descriptionHtml = none) →
      ∀ s, parse_submission id doc ≠ .sub s) := by
  refine ⟨fun ht => parse_submission_title_missing id doc h0 ht,
    fun title ht ha => parse_submission_artist_missing id doc title h0 ht ha,
    ?_, ?_⟩
  · intro title artist v ht ha hc
    obtain ⟨hred1, hred2⟩ := parse_submission_reduce id doc title artist h0 ht ha
    have hgo : ∃ c ext fn,
        parse_submission id doc = parseRemaining id title artist c ext fn doc := by
      rcases hc with hv | ⟨hv0, hv⟩
      · obtain ⟨ext, fn, heq⟩ := hred1 v hv
        exact ⟨_, ext, fn, heq⟩
      · obtain ⟨ext, fn, heq⟩ := hred2 v hv0 hv
        exact ⟨_, ext, fn, heq⟩
    obtain ⟨c, ext, fn, heq⟩ := hgo
    rw [heq]
    refine ⟨fun hr => parseRemaining_rating_missing _ _ _ _ _ _ _ hr, ?_⟩
    intro r rat hr hrp
    exact ⟨fun hp => parseRemaining_posted_missing _ _ _ _ _ _ _ _ _ hr hrp hp,
      fun p hp hd => parseRemaining_description_missing _ _ _ _ _ _ _ _ _ _ hr hrp hp hd⟩
  · intro hmiss s hsub
    obtain ⟨ht, ha, -, hr, hp, hd⟩ := parse_submission_sub_inv id doc s hsub
    rcases hmiss with h | h | h | h | h
    · exact ht h
    · exact ha h
    · exact hr h
    · obtain ⟨p, hp2⟩ := hp
      rw [h] at hp2
      exact Option.noConfusion hp2
    · exact hd h

/-- C8 (witness): the amended claim applied to a concrete document whose
title location matches nothing. -/
theorem missing_field_errors_witness :
    parse_submission 21 docNoTitle = .err ⟨"unable to select title", false⟩ :=
  (missing_field_errors 21 docNoTitle (by decide)).1 rfl

/-- C9: whenever fingerprinting succeeds on image content, the numeric hash
and the encoded hash are set together from the same perceptual-hash bytes —
`hash_num` is exactly the big-endian signed 64-bit reinterpretation of the
bytes whose base64 encoding is stored in `hash`. -/
theorem hash_pair_from_same_bytes (F : String → FetchResult)
    (H : List Nat → Except Error (List Nat)) (G : List Nat → List Nat)
    (sub sub' : Submission) (url : String)
    (hc : sub.content = .Image url)
    (h : calc_image_hash F H G sub = .ok sub') :
    ∃ hb, sub'.hash = some (to_base64 hb) ∧
      sub'.hash_num = some (i64FromBeBytes hb) := by
  rcases calc_image_hash_ok_inv F H G sub sub' h with ⟨-, u, hcf⟩ | ⟨url2, body, hb, -, -, hs⟩
  · rw [hc] at hcf
    exact absurd hcf (by simp)
  · subst hs
    exact ⟨hb, rfl, rfl⟩

/-- C9 (witness): the claim applied to a concrete image record and concrete
stubs for the external fetch, hasher, and digest. -/
theorem hash_pair_from_same_bytes_witness :
    ∃ hb, subImageOut.hash = some (to_base64 hb) ∧
      subImageOut.hash_num = some (i64FromBeBytes hb) :=
  hash_pair_from_same_bytes fetch9 hashFn9 sha9 subImageIn subImageOut
    "https://img.net/c.png" rfl rfl

/-- C10: when the posted-at element is present but lacks its `title`
attribute, `parse_submission` fails with `retry = true` (`"missing title"`),
whereas when the posted-at element itself is absent it fails with
`retry = false` (`"unable to select posted at"`) — opposite retryability
for attribute absence and element absence. -/
theorem posted_at_retryability (id : Int) (doc : Doc)
    (title artist v r : String) (rat : Rating)
    (h0 : notFoundSignal doc = false)
    (ht : doc.titleElem = some title)
    (ha : docArtist doc = some artist)
    (hc : doc.imageSrc = some (some v) ∨ (doc.imageSrc = none ∧ doc.flashData = some (some v)))
    (hr : doc.ratingText = some r)
    (hrp : Rating.parse r = some rat) :
    (doc.postedAtTitle = some none →
      parse_submission id doc = .err ⟨"missing title", true⟩) ∧
    (doc.postedAtTitle = none →
      parse_submission id doc = .err ⟨"unable to select posted at", false⟩) := by
  obtain ⟨hred1, hred2⟩ := parse_submission_reduce id doc title artist h0 ht ha
  have hgo : ∃ c ext fn,
      parse_submission id doc = parseRemaining id title artist c ext fn doc := by
    rcases hc with hv | ⟨hv0, hv⟩
    · obtain ⟨ext, fn, heq⟩ := hred1 v hv
      exact ⟨_, ext, fn, heq⟩
    · obtain ⟨ext, fn, heq⟩ := hred2 v hv0 hv
      exact ⟨_, ext, fn, heq⟩
  obtain ⟨c, ext, fn, heq⟩ := hgo
  rw [heq]
  exact ⟨fun hp => parseRemaining_posted_attr_missing _ _ _ _ _ _ _ _ _ hr hrp hp,
    fun hp => parseRemaining_posted_missing _ _ _ _ _ _ _ _ _ hr hrp hp⟩

/-- C10 (witness): the claim applied to two concrete documents, one per
failure mode. -/
theorem posted_at_retryability_witness :
    parse_submission 31 docPostedAttrless = .err ⟨"missing title", true⟩ ∧
    parse_submission 32 docNoPosted = .err ⟨"unable to select posted at", false⟩ :=
  ⟨(posted_at_retryability 31 docPostedAttrless "T5" "eve" "//img.net/c/d.gif"
      "Adult" .Adult (by decide) (by decide) (by decide) (Or.inl (by decide))
      (by decide) (by decide)).1 rfl,
   (posted_at_retryability 32 docNoPosted "T6" "frank" "//img.net/e/f.gif"
      "General" .General (by decide) (by decide) (by decide) (Or.inl (by decide))
      (by decide) (by decide)).2 rfl⟩

end FA
